import Mathlib

/-!
Shallow embedding of the GOYN reporting app (src/app.py).

The app is a FastAPI service over a single SQLite table
`reports(community, year, period, indicator_id, value, unit, last_updated)`
with primary key `(community, year, period, indicator_id)`, driven by a
static JSON config (sections, each an ordered list of indicators).

The table is modelled as a `List ReportRow`; the PRIMARY KEY constraint is
the well-formedness predicate `wf` (no two rows share the full key).
SQL `INSERT ... ON CONFLICT ... DO UPDATE` is modelled by `sqlUpsert`:
update the matching row in place when the key exists, append otherwise.
The fire-and-forget Google-Sheets sync is modelled by passing the external
outcome of the sync body as an `Except String Unit` argument; `_run_sync`
wraps it in the code's try/except, producing a log string and nothing else.
-/

/-- One indicator of the config catalog (config.json, `sections[].indicators[]`). -/
structure Indicator where
  id : String
  name : String
  unit : String
  derived : Bool
deriving DecidableEq, Repr

/-- One section of the config catalog (config.json, `sections[]`). -/
structure SectionCfg where
  id : String
  name : String
  description : String
  indicators : List Indicator
deriving DecidableEq, Repr

/-- The static config document loaded at startup (CONFIG in app.py). -/
structure Config where
  app_title : String
  active_year : String
  communities : List String
  years : List String
  periods : List String
  sections : List SectionCfg
  google_sheets_enabled : Bool
deriving DecidableEq, Repr

/-- One row of the `reports` table. -/
structure ReportRow where
  community : String
  year : String
  period : String
  indicator_id : String
  value : String
  unit : String
  last_updated : String
deriving DecidableEq, Repr

/-- The `reports` table, as a list of rows. -/
abbrev Reports := List ReportRow

/-- The full primary key of a row. -/
def keyOf (r : ReportRow) : String × String × String × String :=
  (r.community, r.year, r.period, r.indicator_id)

/-- The SQL `WHERE community=? AND year=? AND period=?` prefix test. -/
def inScanScope (r : ReportRow) (c y p : String) : Bool :=
  r.community == c && r.year == y && r.period == p

/-- The SQL `WHERE community=? AND year=? AND period=? AND indicator_id=?`
full-key test used by point lookups and by the upsert's conflict clause. -/
def rowMatches (r : ReportRow) (c y p i : String) : Bool :=
  inScanScope r c y p && (r.indicator_id == i)

/-- PRIMARY KEY invariant of the `reports` table: no two rows share the key. -/
def wf (db : Reports) : Prop :=
  db.Pairwise (fun a b => keyOf a ≠ keyOf b)

instance (db : Reports) : Decidable (wf db) := by
  unfold wf; infer_instance

/-- Point lookup get_value_sql (app.py:86-93): a single-row SELECT of the
value column; returns the fetched value, or the empty string when no row
exists. -/
def get_value_sql (db : Reports) (community year period indicator_id : String) :
    String :=
  match db.find? (fun r => rowMatches r community year period indicator_id) with
  | some row => row.value
  | none => ""

/-- The `DO UPDATE SET value=excluded.value, unit=excluded.unit,
last_updated=excluded.last_updated` part of the upsert: overwrite the
three non-key fields of the conflicting row `x` with those of the
excluded (incoming) row `nr`. -/
def updRow (nr x : ReportRow) : ReportRow :=
  { x with value := nr.value, unit := nr.unit, last_updated := nr.last_updated }

/-- SQLite `INSERT ... ON CONFLICT(community, year, period, indicator_id)
DO UPDATE ...` (app.py:100-105): if a row with the key exists it is
updated in place, otherwise the new row is inserted. -/
def sqlUpsert (db : Reports) (nr : ReportRow) : Reports :=
  if db.any (fun x => rowMatches x nr.community nr.year nr.period nr.indicator_id) then
    db.map (fun x =>
      if rowMatches x nr.community nr.year nr.period nr.indicator_id then
        updRow nr x
      else x)
  else
    db ++ [nr]

/-- The sync body _run_sync (app.py:60-83): the whole body is wrapped in
try/except; the outcome of the body is the `action` argument. Success
prints a completion line, any exception is caught and printed — nothing
propagates. -/
def _run_sync (action : Except String Unit) : String :=
  match action with
  | Except.ok _ => "Background Sync Complete"
  | Except.error e => String.append "Sync Error: " e

/-- The notifier sync_to_google_background (app.py:54-58): returns
immediately when Google Sheets sync is disabled in config, otherwise spawns
the sync body on a background thread. The result is the background log
line, if any. -/
def sync_to_google_background (enabled : Bool) (action : Except String Unit) :
    Option String :=
  if enabled then some ( _run_sync action) else none

/-- The write path upsert_value_sql (app.py:95-108). Returns the new table, whether
`sync_to_google_background` was invoked, and the sync's background log.
The guard `if str(year) != CONFIG["active_year"]: return` makes the write
a silent no-op for non-active years; on the active year the row is
upserted and the sync notifier is fired. -/
def upsert_value_sql (cfg : Config) (action : Except String Unit) (db : Reports)
    (community year period indicator_id value unit : String) (now : String) :
    Reports × Bool × Option String :=
  if year ≠ cfg.active_year then
    (db, false, none)
  else
    (sqlUpsert db ⟨community, year, period, indicator_id, value, unit, now⟩,
     true,
     sync_to_google_background cfg.google_sheets_enabled action)

/-- The data of the single-row fragment rendered by `/save`
(ROW_HTML_STR rendered with `ind=item, editable=True, saved=True`
where `item = dict(ind_def); item["value"] = value`). -/
structure SaveRender where
  ind : Indicator
  value : String
  editable : Bool
  saved : Bool
deriving DecidableEq, Repr

/-- Section resolution used by the routes: the first section whose id
equals section_id, falling back to the first configured section;
`none` models the IndexError raised on an empty catalog. -/
def resolveSection (cfg : Config) (section_id : String) : Option SectionCfg :=
  match cfg.sections with
  | [] => none
  | s0 :: _ => some ((cfg.sections.find? (fun s => s.id == section_id)).getD s0)

/-- The save route (app.py:324-334): unconditionally calls `upsert_value_sql`,
then looks up the indicator definition in the resolved section and renders
the row fragment. `ind_def` is `None` for an unknown indicator_id, and
`dict(None)` raises TypeError — modelled as `Except.error`. -/
def save (cfg : Config) (action : Except String Unit) (db : Reports)
    (community year period section_id indicator_id value unit : String)
    (now : String) : Reports × Except String SaveRender :=
  let up := upsert_value_sql cfg action db community year period indicator_id value unit now
  let db' := up.1
  match resolveSection cfg section_id with
  | none => (db', Except.error "IndexError")
  | some sec =>
    match sec.indicators.find? (fun i => i.id == indicator_id) with
    | none => (db', Except.error "TypeError")
    | some ind => (db', Except.ok ⟨ind, value, true, true⟩)

/-- The rows returned by the range scan
`SELECT ... WHERE community=? AND year=? AND period=?`. -/
def scanRows (db : Reports) (c y p : String) : Reports :=
  db.filter (fun r => inScanScope r c y p)

/-- Insertion into a Python dict modelled as an association list:
replace the binding when the key is present, append otherwise. -/
def dictInsert {α : Type} (m : List (String × α)) (k : String) (v : α) :
    List (String × α) :=
  if m.any (fun kv => kv.1 == k) then
    m.map (fun kv => if kv.1 == k then (k, v) else kv)
  else
    m ++ [(k, v)]

/-- Python dict lookup on the association-list model. -/
def dictFind {α : Type} (m : List (String × α)) (k : String) : Option α :=
  (m.find? (fun kv => kv.1 == k)).map (fun kv => kv.2)

/-- The dict comprehension of the review route (app.py:345), mapping each
scanned row to its indicator_id (later duplicates overwrite earlier ones). -/
def data_map (rows : Reports) : List (String × ReportRow) :=
  rows.foldl (fun m r => dictInsert m r.indicator_id r) []

/-- One row of the review page's summary table. -/
structure ReviewRow where
  name : String
  value : String
  unit : String
deriving DecidableEq, Repr

/-- The review route (app.py:336-362), its `display_rows` computation: scan the
store for the (community, year, period) prefix, build the indicator_id
dictionary, then walk the config's sections and indicators in declared
order keeping those present in the dictionary with a truthy (non-empty)
value; each kept row takes name and unit from config. -/
def review (cfg : Config) (db : Reports) (community year period : String) :
    List ReviewRow :=
  let m := data_map (scanRows db community year period)
  cfg.sections.flatMap (fun s =>
    s.indicators.filterMap (fun ind =>
      match dictFind m ind.id with
      | some row => if row.value == "" then none
                    else some ⟨ind.name, row.value, ind.unit⟩
      | none => none))

/-- The CSV header produced by `df.to_csv` after the column reorder
(app.py:385-387). -/
def csvHeader : List String :=
  ["community", "year", "period", "indicator_id", "indicator_name", "value", "unit"]

/-- The `id_to_name` dict built from the config (app.py:376-379). -/
def id_to_name_map (cfg : Config) : List (String × String) :=
  cfg.sections.foldl
    (fun m s => s.indicators.foldl (fun m2 i => dictInsert m2 i.id i.name) m) []

/-- The CSV route download_report (app.py:364-389): scan the store for the prefix, map
indicator names from config (an unmatched id maps to NaN, which `to_csv`
writes as an empty field), reorder the columns and emit CSV: one header
row followed by one row per stored entry. -/
def download_report (cfg : Config) (db : Reports) (community year period : String) :
    List (List String) :=
  let names := id_to_name_map cfg
  csvHeader ::
    (scanRows db community year period).map (fun r =>
      [r.community, r.year, r.period, r.indicator_id,
       (dictFind names r.indicator_id).getD "", r.value, r.unit])

/-! ### Concrete example configuration and data, used by witnesses -/

/-- Example indicator (spec section 8, `pop_male`). -/
def indMale : Indicator :=
  { id := "pop_male", name := "Population Male", unit := "count", derived := false }

/-- Example derived indicator (spec section 8, `pop_total`). -/
def indTotal : Indicator :=
  { id := "pop_total", name := "Population Total", unit := "count", derived := true }

/-- Example section holding the two indicators, `pop_male` declared first. -/
def secPop : SectionCfg :=
  { id := "population", name := "Population", description := "Population figures",
    indicators := [indMale, indTotal] }

/-- Example config with active year 2024. -/
def cfgEx : Config :=
  { app_title := "GOYN Platform", active_year := "2024",
    communities := ["Acme"], years := ["2023", "2024"],
    periods := ["Annual Total"], sections := [secPop],
    google_sheets_enabled := false }

/-- Example stored row: Acme's 2024 `pop_male` value. -/
def rowMale : ReportRow :=
  { community := "Acme", year := "2024", period := "Annual Total",
    indicator_id := "pop_male", value := "10", unit := "count",
    last_updated := "2024-01-01 00:00:00" }

/-- Example table holding just `rowMale`. -/
def dbEx : Reports := [rowMale]

/-! ### Helper lemmas about the embedded operations -/

/-- A full-key match is exactly equality of primary keys. -/
lemma rowMatches_iff (r : ReportRow) (c y p i : String) :
    rowMatches r c y p i = true ↔ keyOf r = (c, y, p, i) := by
  simp [rowMatches, inScanScope, keyOf, Prod.ext_iff, and_assoc]

/-- The conflict-update of a row keeps its primary key. -/
lemma keyOf_updRow (nr x : ReportRow) : keyOf (updRow nr x) = keyOf x := rfl

/-- The conflict-update of a row does not change which keys it matches. -/
lemma rowMatches_updRow (nr x : ReportRow) (c y p i : String) :
    rowMatches (updRow nr x) c y p i = rowMatches x c y p i := rfl

/-- A row matches its own primary key. -/
lemma rowMatches_self (nr : ReportRow) :
    rowMatches nr nr.community nr.year nr.period nr.indicator_id = true := by
  simp [rowMatches, inScanScope]

/-- The update function of `sqlUpsert` leaves every key-match test unchanged. -/
lemma upd_fun_pred (nr : ReportRow) (c y p i : String) :
    ((fun r => rowMatches r c y p i) ∘
      (fun x => if rowMatches x nr.community nr.year nr.period nr.indicator_id
                then updRow nr x else x))
    = fun r => rowMatches r c y p i := by
  funext x
  by_cases hx : rowMatches x nr.community nr.year nr.period nr.indicator_id <;>
    simp [Function.comp, hx, rowMatches_updRow]

/-- After `sqlUpsert db nr`, a point lookup at `nr`'s key finds `nr`'s value. -/
lemma get_sqlUpsert_same (db : Reports) (nr : ReportRow) :
    get_value_sql (sqlUpsert db nr) nr.community nr.year nr.period nr.indicator_id
      = nr.value := by
  unfold get_value_sql sqlUpsert
  by_cases h : db.any
      (fun x => rowMatches x nr.community nr.year nr.period nr.indicator_id)
  · rw [if_pos h, List.find?_map, upd_fun_pred]
    obtain ⟨x0, hmem, hx0⟩ := List.any_eq_true.mp h
    cases hf : db.find?
        (fun r => rowMatches r nr.community nr.year nr.period nr.indicator_id) with
    | none =>
      exact absurd hx0 (by simpa using List.find?_eq_none.mp hf x0 hmem)
    | some x1 =>
      have hx1 := List.find?_some hf
      simp [hx1, updRow]
  · rw [if_neg h, List.find?_append]
    have hnone : db.find?
        (fun r => rowMatches r nr.community nr.year nr.period nr.indicator_id)
        = none := by
      refine List.find?_eq_none.mpr fun x hx hpx => ?hc
      exact absurd (List.any_eq_true.mpr ⟨x, hx, hpx⟩) (by simpa using h)
    rw [hnone]
    simp [List.find?, rowMatches_self]

/-- Claim C1: for every (community, year, period, indicator_id, value, unit)
where the year equals the configured active year, `upsert_value_sql`
followed by `get_value_sql` with the same key returns exactly the written
value (write-then-read consistency). -/
theorem upsert_then_get_active (cfg : Config) (action : Except String Unit)
    (db : Reports) (c y p i v u now : String) (h : y = cfg.active_year) :
    get_value_sql (upsert_value_sql cfg action db c y p i v u now).1 c y p i
      = v := by
  unfold upsert_value_sql
  rw [if_neg (by simp [h])]
  exact get_sqlUpsert_same db ⟨c, y, p, i, v, u, now⟩

/-- Witness for C1: writing "10" for Acme's 2024 `pop_male` into the empty
table and reading it back yields "10". -/
theorem upsert_then_get_active_witness :
    get_value_sql
      (upsert_value_sql cfgEx (Except.ok ()) [] "Acme" "2024" "Annual Total"
        "pop_male" "10" "count" "t0").1
      "Acme" "2024" "Annual Total" "pop_male" = "10" :=
  upsert_then_get_active cfgEx (Except.ok ()) [] "Acme" "2024" "Annual Total"
    "pop_male" "10" "count" "t0" rfl

/-- Claim C2: when the year differs from the configured active year,
`upsert_value_sql` is a silent no-op — the embedding is a total function
(no exception), the table is returned unchanged, no sync fires, and every
subsequent `get_value_sql` (same key included) returns the pre-existing
value, which is the empty string when no entry existed (claim C7). -/
theorem upsert_nonactive_noop (cfg : Config) (action : Except String Unit)
    (db : Reports) (c y p i v u now : String) (h : y ≠ cfg.active_year) :
    (upsert_value_sql cfg action db c y p i v u now).1 = db ∧
    (upsert_value_sql cfg action db c y p i v u now).2.1 = false ∧
    ∀ c2 y2 p2 i2,
      get_value_sql (upsert_value_sql cfg action db c y p i v u now).1 c2 y2 p2 i2
        = get_value_sql db c2 y2 p2 i2 := by
  unfold upsert_value_sql
  rw [if_pos h]
  exact ⟨rfl, rfl, fun _ _ _ _ => rfl⟩

/-- Witness for C2: a 2023 write against active year 2024, over a table
already holding Acme's 2024 `pop_male` = "10", leaves the read of that
entry unchanged. -/
theorem upsert_nonactive_noop_witness :
    get_value_sql
      (upsert_value_sql cfgEx (Except.ok ()) dbEx "Acme" "2023" "Annual Total"
        "pop_male" "99" "count" "t0").1
      "Acme" "2024" "Annual Total" "pop_male"
    = get_value_sql dbEx "Acme" "2024" "Annual Total" "pop_male" :=
  (upsert_nonactive_noop cfgEx (Except.ok ()) dbEx "Acme" "2023" "Annual Total"
    "pop_male" "99" "count" "t0" (by decide)).2.2
    "Acme" "2024" "Annual Total" "pop_male"

/-- Claim C7: for a key with no stored entry, `get_value_sql` returns the
empty string; the embedded operation is a total function into `String`,
so it can neither return null nor raise for a missing key. -/
theorem get_missing_key_empty (db : Reports) (c y p i : String)
    (h : ∀ r ∈ db, keyOf r ≠ (c, y, p, i)) :
    get_value_sql db c y p i = "" := by
  unfold get_value_sql
  have hnone : db.find? (fun r => rowMatches r c y p i) = none :=
    List.find?_eq_none.mpr fun x hx hpx => h x hx ((rowMatches_iff x c y p i).mp hpx)
  rw [hnone]

/-- Witness for C7: the table holding only `pop_male` has no entry for
`pop_total`, and `get_value_sql` returns the empty string there. -/
theorem get_missing_key_empty_witness :
    get_value_sql dbEx "Acme" "2024" "Annual Total" "pop_total" = "" :=
  get_missing_key_empty dbEx "Acme" "2024" "Annual Total" "pop_total" (by decide)

/-- An upsert leaves the stored row at every other key untouched. -/
lemma find?_sqlUpsert_other (db : Reports) (nr : ReportRow) (c y p i : String)
    (hne : (c, y, p, i) ≠ keyOf nr) :
    (sqlUpsert db nr).find? (fun r => rowMatches r c y p i)
      = db.find? (fun r => rowMatches r c y p i) := by
  unfold sqlUpsert
  by_cases h : db.any
      (fun x => rowMatches x nr.community nr.year nr.period nr.indicator_id)
  · rw [if_pos h, List.find?_map, upd_fun_pred]
    cases hf : db.find? (fun r => rowMatches r c y p i) with
    | none => rfl
    | some x1 =>
      have hx1 := List.find?_some hf
      have hx1k : keyOf x1 = (c, y, p, i) := (rowMatches_iff x1 c y p i).mp hx1
      have hx1nr : rowMatches x1 nr.community nr.year nr.period nr.indicator_id
          = false := by
        cases hb : rowMatches x1 nr.community nr.year nr.period nr.indicator_id
        · rfl
        · exact absurd (hx1k.symm.trans
            ((rowMatches_iff x1 _ _ _ _).mp hb)) (fun he => hne he)
      simp [hx1nr]
  · rw [if_neg h, List.find?_append]
    have hnr : rowMatches nr c y p i = false := by
      cases hb : rowMatches nr c y p i
      · rfl
      · exact absurd ((rowMatches_iff nr c y p i).mp hb)
          (fun he => hne he.symm)
    simp [List.find?, hnr]

/-- The conditional update inside `sqlUpsert` never changes a row's key. -/
lemma keyOf_upd_if (nr x : ReportRow) :
    keyOf (if rowMatches x nr.community nr.year nr.period nr.indicator_id
           then updRow nr x else x) = keyOf x := by
  by_cases hx : rowMatches x nr.community nr.year nr.period nr.indicator_id <;>
    simp [hx, keyOf_updRow]

/-- An upsert preserves the primary-key invariant. -/
lemma wf_sqlUpsert (db : Reports) (nr : ReportRow) (h : wf db) :
    wf (sqlUpsert db nr) := by
  unfold sqlUpsert
  by_cases hany : db.any
      (fun x => rowMatches x nr.community nr.year nr.period nr.indicator_id)
  · rw [if_pos hany]
    unfold wf at h ⊢
    rw [List.pairwise_map]
    exact h.imp fun {a b} hab => by
      simpa [keyOf_upd_if] using hab
  · rw [if_neg hany]
    unfold wf at h ⊢
    rw [List.pairwise_append]
    refine ⟨h, List.pairwise_singleton _ _, fun a ha b hb => ?hg⟩
    rw [List.mem_singleton] at hb
    rw [hb]
    intro hk
    have hm : rowMatches a nr.community nr.year nr.period nr.indicator_id = true :=
      (rowMatches_iff a _ _ _ _).mpr hk
    exact absurd (List.any_eq_true.mpr ⟨a, ha, hm⟩) (by simpa using hany)

/-- Under the primary-key invariant, filtering by a key held by a member
row yields exactly that row. -/
lemma filter_key_singleton (db : Reports) (c y p i : String) (h : wf db)
    (x0 : ReportRow) (hmem : x0 ∈ db) (hx0 : rowMatches x0 c y p i = true) :
    db.filter (fun r => rowMatches r c y p i) = [x0] := by
  induction db with
  | nil => cases hmem
  | cons a l ih =>
    rw [wf, List.pairwise_cons] at h
    rcases List.mem_cons.mp hmem with rfl | hmem2
    · rw [List.filter_cons_of_pos (p := fun r => rowMatches r c y p i) hx0]
      have hnil : l.filter (fun r => rowMatches r c y p i) = [] := by
        rw [List.filter_eq_nil_iff]
        intro b hb hpb
        exact h.1 b hb (((rowMatches_iff x0 c y p i).mp hx0).trans
          ((rowMatches_iff b c y p i).mp hpb).symm)
      rw [hnil]
    · have hpa : ¬(rowMatches a c y p i = true) := by
        intro hb
        exact absurd (((rowMatches_iff a c y p i).mp hb).trans
          ((rowMatches_iff x0 c y p i).mp hx0).symm) (h.1 x0 hmem2)
      rw [List.filter_cons_of_neg (p := fun r => rowMatches r c y p i) hpa]
      exact ih h.2 hmem2

/-- Under the primary-key invariant, after `sqlUpsert db nr` the rows at
`nr`'s key are exactly `[nr]`. -/
lemma filter_sqlUpsert_self (db : Reports) (nr : ReportRow) (h : wf db) :
    (sqlUpsert db nr).filter
      (fun r => rowMatches r nr.community nr.year nr.period nr.indicator_id)
      = [nr] := by
  unfold sqlUpsert
  by_cases hany : db.any
      (fun x => rowMatches x nr.community nr.year nr.period nr.indicator_id)
  · rw [if_pos hany, List.filter_map, upd_fun_pred]
    obtain ⟨x0, hmem, hx0⟩ := List.any_eq_true.mp hany
    rw [filter_key_singleton db _ _ _ _ h x0 hmem hx0]
    have hk : keyOf x0 = (nr.community, nr.year, nr.period, nr.indicator_id) :=
      (rowMatches_iff x0 _ _ _ _).mp hx0
    cases x0 with
    | mk c0 y0 p0 i0 v0 u0 t0 =>
      cases nr with
      | mk c1 y1 p1 i1 v1 u1 t1 =>
        simp only [keyOf, Prod.mk.injEq] at hk
        obtain ⟨e1, e2, e3, e4⟩ := hk
        subst e1; subst e2; subst e3; subst e4
        simp [hx0, updRow]
  · rw [if_neg hany, List.filter_append]
    have h1 : db.filter
        (fun r => rowMatches r nr.community nr.year nr.period nr.indicator_id)
        = [] := by
      rw [List.filter_eq_nil_iff]
      intro b hb hpb
      exact absurd (List.any_eq_true.mpr ⟨b, hb, hpb⟩) (by simpa using hany)
    rw [h1]
    simp [List.filter, rowMatches_self]

/-- Claim C6: an upsert to key k — whether it writes or is rejected —
leaves the stored row at every other key k' untouched: both the full row
found at k' and the value read at k' are unchanged. -/
theorem upsert_frame (cfg : Config) (action : Except String Unit) (db : Reports)
    (c y p i v u now c2 y2 p2 i2 : String)
    (hne : (c2, y2, p2, i2) ≠ (c, y, p, i)) :
    (upsert_value_sql cfg action db c y p i v u now).1.find?
        (fun r => rowMatches r c2 y2 p2 i2)
      = db.find? (fun r => rowMatches r c2 y2 p2 i2) ∧
    get_value_sql (upsert_value_sql cfg action db c y p i v u now).1 c2 y2 p2 i2
      = get_value_sql db c2 y2 p2 i2 := by
  have hmain : (upsert_value_sql cfg action db c y p i v u now).1.find?
      (fun r => rowMatches r c2 y2 p2 i2)
      = db.find? (fun r => rowMatches r c2 y2 p2 i2) := by
    unfold upsert_value_sql
    by_cases hy : y ≠ cfg.active_year
    · rw [if_pos hy]
    · rw [if_neg hy]
      exact find?_sqlUpsert_other db ⟨c, y, p, i, v, u, now⟩ c2 y2 p2 i2 hne
  refine ⟨hmain, ?hget⟩
  unfold get_value_sql
  rw [hmain]

/-- Witness for C6: writing `pop_total` leaves the stored `pop_male` row
(and its read value) unchanged. -/
theorem upsert_frame_witness :
    get_value_sql
      (upsert_value_sql cfgEx (Except.ok ()) dbEx "Acme" "2024" "Annual Total"
        "pop_total" "25" "count" "t1").1
      "Acme" "2024" "Annual Total" "pop_male"
    = get_value_sql dbEx "Acme" "2024" "Annual Total" "pop_male" :=
  (upsert_frame cfgEx (Except.ok ()) dbEx "Acme" "2024" "Annual Total"
    "pop_total" "25" "count" "t1" "Acme" "2024" "Annual Total" "pop_male"
    (by decide)).2

/-- Claim C5: upsert is idempotent-overwrite — after `upsert(k, v1)` then
`upsert(k, v2)` in the active year, the table holds exactly one entry at
k, whose value, unit, and last_updated are those of the second write. -/
theorem upsert_idempotent_overwrite (cfg : Config) (a1 a2 : Except String Unit)
    (db : Reports) (c y p i v1 u1 t1 v2 u2 t2 : String)
    (hwf : wf db) (hy : y = cfg.active_year) :
    ((upsert_value_sql cfg a2
        (upsert_value_sql cfg a1 db c y p i v1 u1 t1).1
        c y p i v2 u2 t2).1).filter (fun r => rowMatches r c y p i)
      = [⟨c, y, p, i, v2, u2, t2⟩] := by
  have hcond : ¬(y ≠ cfg.active_year) := by simp [hy]
  unfold upsert_value_sql
  simp only [if_neg hcond]
  exact filter_sqlUpsert_self _ ⟨c, y, p, i, v2, u2, t2⟩
    (wf_sqlUpsert db ⟨c, y, p, i, v1, u1, t1⟩ hwf)

/-- Witness for C5: overwriting Acme's 2024 `pop_male` ("1" then "2")
leaves exactly one row at that key, carrying the second write. -/
theorem upsert_idempotent_overwrite_witness :
    ((upsert_value_sql cfgEx (Except.ok ())
        (upsert_value_sql cfgEx (Except.ok ()) dbEx "Acme" "2024" "Annual Total"
          "pop_male" "1" "count" "t1").1
        "Acme" "2024" "Annual Total" "pop_male" "2" "count" "t2").1).filter
      (fun r => rowMatches r "Acme" "2024" "Annual Total" "pop_male")
    = [⟨"Acme", "2024", "Annual Total", "pop_male", "2", "count", "t2"⟩] :=
  upsert_idempotent_overwrite cfgEx (Except.ok ()) (Except.ok ()) dbEx
    "Acme" "2024" "Annual Total" "pop_male" "1" "count" "t1" "2" "count" "t2"
    (by decide) rfl

/-- Claim C9: the sync notifier is fired exactly on successful upserts
(never on a rejected non-active-year write), and the sync body's outcome —
success or any failure — changes neither the resulting table nor the
upsert's success flag; `_run_sync` converts every failure into a log line. -/
theorem sync_fired_iff_success (cfg : Config) (a1 a2 : Except String Unit)
    (db : Reports) (c y p i v u now : String) :
    (upsert_value_sql cfg a1 db c y p i v u now).1
      = (upsert_value_sql cfg a2 db c y p i v u now).1 ∧
    (upsert_value_sql cfg a1 db c y p i v u now).2.1
      = (upsert_value_sql cfg a2 db c y p i v u now).2.1 ∧
    ((upsert_value_sql cfg a1 db c y p i v u now).2.1 = true
      ↔ y = cfg.active_year) ∧
    ∀ e, _run_sync (Except.error e) = String.append "Sync Error: " e := by
  refine ⟨?e1, ?e2, ?e3, fun e => rfl⟩
  · unfold upsert_value_sql
    by_cases hy : y ≠ cfg.active_year
    · rw [if_pos hy, if_pos hy]
    · rw [if_neg hy, if_neg hy]
  · unfold upsert_value_sql
    by_cases hy : y ≠ cfg.active_year
    · rw [if_pos hy, if_pos hy]
    · rw [if_neg hy, if_neg hy]
  · unfold upsert_value_sql
    by_cases hy : y ≠ cfg.active_year
    · rw [if_pos hy]
      simp [hy]
    · rw [if_neg hy]
      push_neg at hy
      simp [hy]

/-- Witness for C9: a sync failing with "quota" produces the same table as
a succeeding sync. -/
theorem sync_fired_iff_success_witness :
    (upsert_value_sql cfgEx (Except.error "quota") dbEx "Acme" "2024"
      "Annual Total" "pop_male" "7" "count" "t1").1
    = (upsert_value_sql cfgEx (Except.ok ()) dbEx "Acme" "2024"
      "Annual Total" "pop_male" "7" "count" "t1").1 :=
  (sync_fired_iff_success cfgEx (Except.error "quota") (Except.ok ()) dbEx
    "Acme" "2024" "Annual Total" "pop_male" "7" "count" "t1").1

/-- Claim C10 (implicit): for a save request whose indicator is found in
the resolved section, the returned row fragment always carries the
submitted value with `editable = true` and `saved = true`, regardless of
whether the upsert actually wrote — the table component is whatever the
(possibly rejected) upsert produced. -/
theorem save_always_shows_saved (cfg : Config) (action : Except String Unit)
    (db : Reports) (c y p sid i v u now : String)
    (sec : SectionCfg) (ind : Indicator)
    (hsec : resolveSection cfg sid = some sec)
    (hind : sec.indicators.find? (fun j => j.id == i) = some ind) :
    save cfg action db c y p sid i v u now
      = ((upsert_value_sql cfg action db c y p i v u now).1,
         Except.ok ⟨ind, v, true, true⟩) := by
  simp only [save, hsec, hind]

/-- Witness for C10: a save against the non-active year 2023 returns the
fragment showing the submitted "99" as saved and editable, while the
table is left exactly as it was. -/
theorem save_always_shows_saved_witness :
    save cfgEx (Except.ok ()) dbEx "Acme" "2023" "Annual Total" "population"
      "pop_male" "99" "count" "t1"
      = (dbEx, Except.ok ⟨indMale, "99", true, true⟩) :=
  (save_always_shows_saved cfgEx (Except.ok ()) dbEx "Acme" "2023"
    "Annual Total" "population" "pop_male" "99" "count" "t1" secPop indMale
    rfl rfl).trans (by rfl)

/-- Claim C4 evaluated on the code: a save request with an unknown
indicator_id is not rejected as a client error — the rendering step
raises (TypeError from `dict(None)`), and the upsert has already written
the unknown indicator before the crash. -/
theorem save_unknown_indicator_crash :
    (save cfgEx (Except.ok ()) [] "Acme" "2024" "Annual Total" "population"
      "bogus" "5" "count" "t1").2 = Except.error "TypeError" ∧
    (save cfgEx (Except.ok ()) [] "Acme" "2024" "Annual Total" "population"
      "bogus" "5" "count" "t1").1
      = [⟨"Acme", "2024", "Annual Total", "bogus", "5", "count", "t1"⟩] :=
  ⟨rfl, rfl⟩

/-- Membership in the key prefix, field by field. -/
lemma inScanScope_iff (r : ReportRow) (c y p : String) :
    inScanScope r c y p = true ↔ r.community = c ∧ r.year = y ∧ r.period = p := by
  simp [inScanScope, and_assoc]

/-- Under the primary-key invariant, the rows scanned for one
(community, year, period) prefix carry pairwise distinct indicator ids. -/
lemma scan_ids_pairwise (db : Reports) (c y p : String) (h : wf db) :
    (scanRows db c y p).Pairwise (fun a b => a.indicator_id ≠ b.indicator_id) := by
  unfold scanRows
  induction db with
  | nil => exact List.Pairwise.nil
  | cons a l ih =>
    rw [wf, List.pairwise_cons] at h
    by_cases ha : inScanScope a c y p = true
    · rw [List.filter_cons_of_pos (p := fun r => inScanScope r c y p) ha,
        List.pairwise_cons]
      refine ⟨fun b hb hid => ?hd, ih h.2⟩
      have hbl := List.mem_filter.mp hb
      apply h.1 b hbl.1
      obtain ⟨ha1, ha2, ha3⟩ := (inScanScope_iff a c y p).mp ha
      obtain ⟨hb1, hb2, hb3⟩ := (inScanScope_iff b c y p).mp hbl.2
      simp [keyOf, ha1, ha2, ha3, hb1, hb2, hb3, hid]
    · rw [List.filter_cons_of_neg (p := fun r => inScanScope r c y p) ha]
      exact ih h.2

/-- Folding dict insertions of rows with fresh, pairwise-distinct ids is
just appending the (id, row) pairs. -/
lemma data_map_loop : ∀ (rows : Reports) (m : List (String × ReportRow)),
    rows.Pairwise (fun a b => a.indicator_id ≠ b.indicator_id) →
    (∀ r ∈ rows, ∀ kv ∈ m, kv.1 ≠ r.indicator_id) →
    rows.foldl (fun acc r => dictInsert acc r.indicator_id r) m
      = m ++ rows.map (fun r => (r.indicator_id, r)) := by
  intro rows
  induction rows with
  | nil => intro m _ _; simp
  | cons r t ih =>
    intro m hdist hdisj
    rw [List.pairwise_cons] at hdist
    have hnone : ¬(m.any (fun kv => kv.1 == r.indicator_id) = true) := by
      intro hc
      obtain ⟨kv, hkv, hkveq⟩ := List.any_eq_true.mp hc
      exact hdisj r (List.mem_cons_self r t) kv hkv (by simpa using hkveq)
    have hins : dictInsert m r.indicator_id r = m ++ [(r.indicator_id, r)] := by
      unfold dictInsert
      rw [if_neg hnone]
    have hdisj2 : ∀ s ∈ t, ∀ kv ∈ m ++ [(r.indicator_id, r)],
        kv.1 ≠ s.indicator_id := by
      intro s hs kv hkv
      rcases List.mem_append.mp hkv with hm | hone
      · exact hdisj s (List.mem_cons_of_mem r hs) kv hm
      · rw [List.mem_singleton] at hone
        rw [hone]
        exact hdist.1 s hs
    rw [List.foldl_cons, hins, ih (m ++ [(r.indicator_id, r)]) hdist.2 hdisj2,
      List.append_assoc]
    rfl

/-- Dict lookup over the plain (id, row) pairs is `find?` on the rows. -/
lemma dictFind_pairs (rows : Reports) (i : String) :
    dictFind (rows.map (fun r => (r.indicator_id, r))) i
      = rows.find? (fun r => r.indicator_id == i) := by
  induction rows with
  | nil => rfl
  | cons r t ih =>
    simp only [List.map_cons]
    by_cases h : (r.indicator_id == i) = true
    · unfold dictFind
      rw [List.find?_cons_of_pos (p := fun kv : String × ReportRow => kv.1 == i)
          _ (show ((r.indicator_id, r).1 == i) = true from h),
        List.find?_cons_of_pos (p := fun r : ReportRow => r.indicator_id == i) _ h]
      rfl
    · unfold dictFind at ih ⊢
      rw [List.find?_cons_of_neg (p := fun kv : String × ReportRow => kv.1 == i)
          _ (show ¬(((r.indicator_id, r).1 == i) = true) from h),
        List.find?_cons_of_neg (p := fun r : ReportRow => r.indicator_id == i) _ h]
      exact ih

/-- For scan results with pairwise-distinct ids, the review dictionary's
lookup coincides with `find?` on the scanned rows. -/
lemma dictFind_data_map (rows : Reports)
    (hdist : rows.Pairwise (fun a b => a.indicator_id ≠ b.indicator_id))
    (i : String) :
    dictFind (data_map rows) i = rows.find? (fun r => r.indicator_id == i) := by
  unfold data_map
  rw [data_map_loop rows [] hdist (fun r _ kv hkv => absurd hkv (List.not_mem_nil kv)),
    List.nil_append]
  exact dictFind_pairs rows i

/-- A point lookup is `find?` by indicator id over the prefix scan. -/
lemma get_eq_scan (db : Reports) (c y p i : String) :
    get_value_sql db c y p i
      = match (scanRows db c y p).find? (fun r => r.indicator_id == i) with
        | some r => r.value
        | none => "" := by
  have hpred : (fun a => decide (inScanScope a c y p = true
      ∧ (a.indicator_id == i) = true)) = fun r => rowMatches r c y p i := by
    funext r
    by_cases h1 : inScanScope r c y p = true <;>
      by_cases h2 : (r.indicator_id == i) = true <;>
        simp [rowMatches, h1, h2]
  unfold get_value_sql scanRows
  rw [List.find?_filter, hpred]

/-- Distributivity of `List.filterMap` over `List.flatMap`. -/
lemma filterMap_flatMap {α β γ : Type} (l : List α) (f : α → List β)
    (g : β → Option γ) :
    (l.flatMap f).filterMap g = l.flatMap (fun a => (f a).filterMap g) := by
  induction l with
  | nil => rfl
  | cons a t ih =>
    rw [List.flatMap_cons, List.flatMap_cons, List.filterMap_append, ih]

/-- Claim C3: the review page's rows are the config catalog's indicators
in declaration order, restricted to those whose stored value at
(community, year, period) is non-empty (absent keys read as empty and are
omitted), each row being (name from config, stored value, unit from
config). Stated against the point-lookup `get_value_sql`, under the
table's PRIMARY KEY invariant. -/
theorem review_config_order (cfg : Config) (db : Reports) (c y p : String)
    (hwf : wf db) :
    review cfg db c y p
      = (cfg.sections.flatMap SectionCfg.indicators).filterMap (fun ind =>
          if get_value_sql db c y p ind.id = "" then none
          else some ⟨ind.name, get_value_sql db c y p ind.id, ind.unit⟩) := by
  have hids := scan_ids_pairwise db c y p hwf
  simp only [review]
  rw [filterMap_flatMap]
  refine congrArg _ (funext fun s =>
    congrArg (fun g => List.filterMap g s.indicators) (funext fun ind => ?hpt))
  rw [dictFind_data_map _ hids, get_eq_scan db c y p]
  cases hf : (scanRows db c y p).find? (fun r => r.indicator_id == ind.id) with
  | none => simp
  | some r =>
    by_cases hv : r.value = ""
    · simp [hv]
    · simp [hv]

/-- Second stored row for the review witness: `pop_total` = "5". -/
def rowTotal : ReportRow :=
  { community := "Acme", year := "2024", period := "Annual Total",
    indicator_id := "pop_total", value := "5", unit := "count",
    last_updated := "2024-01-02 00:00:00" }

/-- A table listing `pop_total` before `pop_male`, the reverse of the
config's declaration order. -/
def dbRev : Reports := [rowTotal, rowMale]

/-- Witness for C3: although the table stores `pop_total` first, review
lists `pop_male` first — the config's declaration order — with names and
units from config. -/
theorem review_config_order_witness :
    review cfgEx dbRev "Acme" "2024" "Annual Total"
      = [⟨"Population Male", "10", "count"⟩,
         ⟨"Population Total", "5", "count"⟩] :=
  (review_config_order cfgEx dbRev "Acme" "2024" "Annual Total"
    (by decide)).trans (by decide)

/-- Claim C8: the CSV export starts with the fixed header row (also when
there are no data rows), has exactly one data row per stored entry at the
(community, year, period) prefix — empty values included — and each
stored entry yields the columns community, year, period, indicator_id,
indicator_name joined from config (empty when unmatched), value, unit. -/
theorem download_csv_shape (cfg : Config) (db : Reports) (c y p : String) :
    (download_report cfg db c y p).head? = some csvHeader ∧
    (download_report cfg db c y p).length
      = db.countP (fun r => inScanScope r c y p) + 1 ∧
    ∀ r ∈ db, inScanScope r c y p = true →
      [r.community, r.year, r.period, r.indicator_id,
       (dictFind (id_to_name_map cfg) r.indicator_id).getD "", r.value, r.unit]
        ∈ download_report cfg db c y p := by
  refine ⟨rfl, ?hlen, ?hmem⟩
  · simp only [download_report]
    rw [List.length_cons, List.length_map]
    unfold scanRows
    rw [List.countP_eq_length_filter]
  · intro r hr hpre
    simp only [download_report]
    refine List.mem_cons_of_mem _ (List.mem_map.mpr ⟨r, ?hscan, rfl⟩)
    unfold scanRows
    exact List.mem_filter.mpr ⟨hr, hpre⟩

/-- Witness for C8: the stored `pop_male` entry appears in the export as
a full CSV row with its name joined from config. -/
theorem download_csv_shape_witness :
    ["Acme", "2024", "Annual Total", "pop_male", "Population Male", "10", "count"]
      ∈ download_report cfgEx dbEx "Acme" "2024" "Annual Total" :=
  (download_csv_shape cfgEx dbEx "Acme" "2024" "Annual Total").2.2
    rowMale (by decide) (by decide)
